import Mathlib

/-!
Verification development for the http-epub page-to-EPUB converter.

The definitions below are a shallow embedding of the Rust sources
(src/fetch.rs, src/extract.rs, src/epub.rs).  Functions keep the names of
the Rust functions they embed.  External crates (url, reqwest, ammonia,
chrono, uuid, epub-builder) are not part of the repository; where their
behaviour matters it is modelled explicitly, and the corresponding
definition carries a doc comment saying so.
-/

namespace HttpEpub

/-- `charsHavePre pat s` decides whether `pat` is a prefix of `s`. -/
def charsHavePre : List Char → List Char → Bool
  | [], _ => true
  | _ :: _, [] => false
  | p :: ps, c :: cs => p == c && charsHavePre ps cs

/-- `charsOccur pat s` decides whether `pat` occurs contiguously in `s`. -/
def charsOccur (pat : List Char) : List Char → Bool
  | [] => pat.isEmpty
  | c :: cs => charsHavePre pat (c :: cs) || charsOccur pat cs

/-- Substring containment, the semantics of Rust `str::contains` with a
string pattern. -/
def strContains (s pat : String) : Bool :=
  charsOccur pat.data s.data

/-- Rust `str::starts_with`. -/
def strStartsWith (s pat : String) : Bool :=
  charsHavePre pat.data s.data

/-- Left-to-right non-overlapping replacement on character lists, the
semantics of Rust `str::replace`.  Each step consumes at least one
character, so any fuel of at least the input length is enough; the
recursion is on the fuel so that the function evaluates inside the
kernel. -/
def replaceFuel (pat sub : List Char) : Nat → List Char → List Char
  | 0, l => l
  | _ + 1, [] => []
  | fuel + 1, c :: cs =>
    if !pat.isEmpty && charsHavePre pat (c :: cs) then
      sub ++ replaceFuel pat sub fuel ((c :: cs).drop pat.length)
    else c :: replaceFuel pat sub fuel cs

/-- Rust `str::replace`. -/
def strReplace (s pat sub : String) : String :=
  String.mk (replaceFuel pat.data sub.data (s.data.length + 1) s.data)

/-- Splitting on a non-empty separator, accumulating the current piece in
reverse; the semantics of Rust `str::split`.  Fueled like
`replaceFuel`. -/
def splitFuel (pat : List Char) : Nat → List Char → List Char → List (List Char)
  | 0, l, acc => [acc.reverse ++ l]
  | _ + 1, [], acc => [acc.reverse]
  | fuel + 1, c :: cs, acc =>
    if charsHavePre pat (c :: cs) then
      acc.reverse :: splitFuel pat fuel ((c :: cs).drop pat.length) []
    else splitFuel pat fuel cs (c :: acc)

/-- String splitting on a separator. -/
def strSplitOn (s sep : String) : List String :=
  match sep.data with
  | [] => [s]
  | p :: ps => (splitFuel (p :: ps) (s.data.length + 1) s.data []).map String.mk

/-- Rust `str::trim_start` (ASCII whitespace suffices for the inputs this
program handles). -/
def strTrimLeft (s : String) : String :=
  String.mk (s.data.dropWhile Char.isWhitespace)

/-- Rust `str::trim_end`. -/
def strTrimRight (s : String) : String :=
  String.mk ((s.data.reverse.dropWhile Char.isWhitespace).reverse)

/-- Rust `str::trim`. -/
def strTrim (s : String) : String :=
  strTrimLeft (strTrimRight s)

/-- Rust `str::splitn(2, c)`: at most two pieces, the split happening at the
first occurrence of the separator. -/
def splitn2 (s : String) (sep : String) : List String :=
  match strSplitOn s sep with
  | [] => [s]
  | [x] => [x]
  | x :: rest => [x, String.intercalate sep rest]

/-- Modelled from the spec: the `url` crate's parsed absolute URL, §3
"PageRequest: an input URL (string, must parse as absolute)".  Only the
components the program reads (host, path, query) are modelled; the host is
optional as in `Url::host_str`. -/
structure Url where
  scheme : String
  host : Option String
  path : String
  query : Option String
deriving DecidableEq, Repr

/-- Serialization of a URL, the model of `Url::as_str`. -/
def Url.toStr (u : Url) : String :=
  u.scheme ++ "://" ++ u.host.getD "" ++ u.path ++
    (match u.query with
     | some q => "?" ++ q
     | none => "")

/-- Rust `url.host_str().unwrap_or("")` as used in src/fetch.rs:65. -/
def Url.hostStr (u : Url) : String :=
  u.host.getD ""

/-- src/fetch.rs:64-105, `Fetcher::get_print_friendly_url`: per-domain
rewrite of a URL to a reader-friendly fetch URL. -/
def get_print_friendly_url (url : Url) : Url :=
  let host := url.hostStr
  if strContains host "wikipedia.org" then
    if strStartsWith host "en." then
      { url with host := some "en.m.wikipedia.org" }
    else if !strContains host ".m." && strContains host "." then
      match splitn2 host "." with
      | [lang, domain] =>
          { url with host := some (lang ++ ".m." ++ domain) }
      | _ => url
    else
      url
  else if strContains host "medium.com" then
    { url with query := some "format=print" }
  else if strContains host "nytimes.com" || strContains host "washingtonpost.com" then
    match url.query with
    | some q => { url with query := some (q ++ "&print=true") }
    | none => { url with query := some "print=true" }
  else
    url

/-- Model of the url crate's `Url::path_segments`: for the http(s) URLs this
program works with, the serialized path starts with `/` and the segments are
the `/`-separated pieces after it; a URL that cannot be a base has none. -/
def Url.pathSegments (u : Url) : Option (List String) :=
  if strStartsWith u.path "/" then some (strSplitOn (u.path.drop 1) "/") else none

/-- `dirOf p` is `p` up to and including its last `/`: the directory part a
relative reference is resolved against. -/
def dirOf (p : String) : String :=
  let cs := p.data
  String.mk (cs.take (cs.length - (cs.reverse.takeWhile (fun c => !(c == '/'))).length))

/-- Modelled from the spec: parsing an absolute URL string
(§3 "PageRequest: an input URL (string, must parse as absolute)") into the
components of the model.  An empty path serializes back as `/`, as the url
crate normalizes it for special schemes. -/
def parseAbsUrl (s : String) : Option Url :=
  match splitn2 s "://" with
  | [scheme, rest] =>
    if scheme.isEmpty || rest.isEmpty then none
    else
      let hostCs := rest.data.takeWhile (fun c => !(c == '/' || c == '?'))
      let tail := String.mk (rest.data.drop hostCs.length)
      match splitn2 tail "?" with
      | [p, q] =>
        some { scheme := scheme, host := some (String.mk hostCs),
               path := if p.isEmpty then "/" else p, query := some q }
      | [p] =>
        some { scheme := scheme, host := some (String.mk hostCs),
               path := if p.isEmpty then "/" else p, query := none }
      | _ => none
  | _ => none

/-- Modelled from the spec: the url crate's reference resolution, §3
"relative URLs appearing in markup are resolved against the fetched page's
effective URL".  The model covers the reference forms the program meets:
absolute URLs, protocol-relative references, absolute paths, and plain
relative paths; dot segments are out of the model. -/
def Url.join (base : Url) (ref : String) : Option Url :=
  if strContains ref "://" then parseAbsUrl ref
  else if strStartsWith ref "//" then parseAbsUrl (base.scheme ++ "://" ++ ref.drop 2)
  else if strStartsWith ref "/" then
    match splitn2 ref "?" with
    | [p, q] => some { base with path := p, query := some q }
    | _ => some { base with path := ref, query := none }
  else if ref.isEmpty then some base
  else
    match splitn2 ref "?" with
    | [p, q] => some { base with path := dirOf base.path ++ p, query := some q }
    | _ => some { base with path := dirOf base.path ++ ref, query := none }

/-- src/fetch.rs:8-13: one downloaded image, its bundled path, bytes and
MIME tag. -/
structure DownloadedImage where
  local_path : String
  data : List Nat
  mime_type : String
deriving DecidableEq, Repr

/-- src/fetch.rs:15-20: the fetched page. -/
structure FetchedContent where
  original_url : Url
  url : Url
  html_string : String
deriving DecidableEq, Repr

/-- Modelled from the spec: the observable outcome of the blocking HTTP
client for the page GET (§4.2 "single synchronous GET; failure on transport
error or non-decodable body").  A response carries its status code and the
result of decoding the body to text. -/
structure HttpResponse where
  status : Nat
  text : Except String String
deriving Repr

/-- src/fetch.rs:39-61, `Fetcher::fetch_content`: normalize the URL, send
one GET (the transport is the `send` parameter), decode the body.  The
response status is never inspected. -/
def fetch_content (send : Url → Except String HttpResponse) (url : Url) :
    Except String FetchedContent :=
  let pf_url := get_print_friendly_url url
  match send pf_url with
  | .error e => .error e
  | .ok response =>
    match response.text with
    | .error e => .error e
    | .ok html => .ok { original_url := url, url := pf_url, html_string := html }

/-- Modelled from the spec: the observable outcome of one image GET
(§4.2): status code, optional `Content-Type` header, and the result of
reading the body bytes. -/
structure ImageResponse where
  status : Nat
  contentType : Option String
  body : Except String (List Nat)
deriving Repr

/-- src/fetch.rs:177-216, `Fetcher::download_image`: one image fetch over
the transport oracle `send`; unsuccessful statuses are errors here, and the
MIME tag comes from a substring match on the `Content-Type` header,
defaulting to `image/jpeg`. -/
def download_image (send : Url → Except String ImageResponse)
    (img_url : Url) : Except String (List Nat × String) :=
  match send img_url with
  | .error e => .error e
  | .ok response =>
    if !(200 ≤ response.status && response.status < 300) then
      .error "Failed to download image: HTTP status"
    else
      let content_type := response.contentType.getD "image/jpeg"
      let mime_type :=
        if strContains content_type "jpeg" || strContains content_type "jpg" then "image/jpeg"
        else if strContains content_type "png" then "image/png"
        else if strContains content_type "gif" then "image/gif"
        else if strContains content_type "svg" then "image/svg+xml"
        else if strContains content_type "webp" then "image/webp"
        else "image/jpeg"
      match response.body with
      | .error e => .error e
      | .ok data => .ok (data, mime_type)

/-- src/fetch.rs:152-164, `Fetcher::generate_unique_filename`: the last
path segment if non-empty, else a fresh token (`fresh` stands for the
string `Uuid::new_v4()` would produce). -/
def generate_unique_filename (fresh : String) (url : Url) : String :=
  match url.pathSegments with
  | none => fresh
  | some segments =>
    match segments.getLast? with
    | none => fresh
    | some name => if name.isEmpty then fresh else name

/-- src/fetch.rs:166-175, `Fetcher::mime_type_to_extension`. -/
def mime_type_to_extension (mime_type : String) : String :=
  if mime_type == "image/jpeg" then "jpg"
  else if mime_type == "image/png" then "png"
  else if mime_type == "image/gif" then "gif"
  else if mime_type == "image/svg+xml" then "svg"
  else if mime_type == "image/webp" then "webp"
  else "jpg"

/-- Model of `HashMap::insert`: replace the binding of an existing key,
otherwise add a new one. -/
def mapInsert {α : Type} (m : List (String × α)) (k : String) (v : α) :
    List (String × α) :=
  if m.any (fun p => p.1 == k) then
    m.map (fun p => if p.1 == k then (k, v) else p)
  else m ++ [(k, v)]

/-- Model of `HashMap::get` over the association-list model. -/
def mapGet {α : Type} (m : List (String × α)) (k : String) : Option α :=
  (m.find? (fun p => p.1 == k)).map (fun p => p.2)

/-- src/fetch.rs:109-150, `Fetcher::download_image_list`: download every
URL of the input set (modelled as a list, one entry per distinct URL),
keying successes by the URL's string form and skipping failures; the
result is unconditionally `Ok`.  `fresh` supplies the token
`Uuid::new_v4()` would generate for a URL with no usable path segment.
This is the body of the download loop of src/fetch.rs:119-144 for one
URL. -/
def downloadStep (send : Url → Except String ImageResponse)
    (fresh : Url → String) (image_map : List (String × DownloadedImage))
    (url : Url) : List (String × DownloadedImage) :=
  match download_image send url with
  | .ok (image_binary_data, image_mime_type) =>
    let base_name := generate_unique_filename (fresh url) url
    let extension := mime_type_to_extension image_mime_type
    let local_img_path := "images/" ++ base_name ++ "." ++ extension
    mapInsert image_map url.toStr
      { local_path := local_img_path, data := image_binary_data,
        mime_type := image_mime_type }
  | .error _ => image_map

/-- See `downloadStep`; the whole loop of src/fetch.rs:119-144, ending in
the unconditional `Ok` of src/fetch.rs:149. -/
def download_image_list (send : Url → Except String ImageResponse)
    (fresh : Url → String) (image_urls : List Url) :
    Except String (List (String × DownloadedImage)) :=
  .ok (image_urls.foldl (downloadStep send fresh) [])

/-- Decimal digit character. -/
def digitChar (d : Nat) : Char := Char.ofNat (48 + d)

/-- Fueled digit expansion: any fuel of at least `n` is enough, and the
recursion on the fuel keeps the function kernel-evaluable. -/
def natCharsFuel : Nat → Nat → List Char
  | 0, n => [digitChar n]
  | fuel + 1, n =>
    if n < 10 then [digitChar n]
    else natCharsFuel fuel (n / 10) ++ [digitChar (n % 10)]

/-- Decimal numeral of a natural number, the model of Rust
`format!` on an integer counter. -/
def natChars (n : Nat) : List Char := natCharsFuel n n

/-- Numeric value of a digit character. -/
def charVal (c : Char) : Nat := c.toNat - 48

/-- Decimal parse of a digit list, inverse of `natChars`. -/
def parseDigits (cs : List Char) : Nat :=
  cs.foldl (fun a c => 10 * a + charVal c) 0

/-- Rust `Path::file_stem` / `Path::extension` on a bare file name: split
at the last dot, no extension when there is no dot or the only dot leads. -/
def splitStemExt (name : String) : String × String :=
  let cs := name.data
  let revTail := cs.reverse.takeWhile (fun c => !(c == '.'))
  if revTail.length == cs.length then (name, "")
  else
    let stemLen := cs.length - revTail.length - 1
    if stemLen == 0 then (name, "")
    else (String.mk (cs.take stemLen), String.mk revTail.reverse)

/-- src/epub.rs:108-113: the alternative file name tried for a counter
value, `stem (n)` or `stem (n).ext`. -/
def collisionCandidate (stem ext : String) (counter : Nat) : String :=
  if ext.isEmpty then stem ++ " (" ++ String.mk (natChars counter) ++ ")"
  else stem ++ " (" ++ String.mk (natChars counter) ++ ")." ++ ext

/-- src/epub.rs:108-120: the incrementing search for a free candidate,
made total with explicit fuel (the loop in the source is unbounded; the
theorems instantiate the fuel at a provably sufficient value). -/
def searchFree (fs : List String) (stem ext : String) :
    Nat → Nat → Nat
  | 0, counter => counter
  | fuel + 1, counter =>
    if collisionCandidate stem ext counter ∈ fs then
      searchFree fs stem ext fuel (counter + 1)
    else counter

/-- src/epub.rs:94-121: output-path collision avoidance.  The file system
is modelled as the list of file names existing in the output directory
(`with_file_name` keeps the directory). -/
def resolveOutputPath (fs : List String) (path : String) : String :=
  if path ∈ fs then
    let se := splitStemExt path
    collisionCandidate se.1 se.2 (searchFree fs se.1 se.2 (fs.length + 1) 1)
  else path

/-- The fallible stages of `create_epub`, in source order
(src/epub.rs:72-246). -/
inductive EpubStage
  | addTemplates
  | createFile
  | createBuilder
  | setMetadata
  | setCover
  | addCoverPage
  | addResources
  | addArticle
  | generate
deriving DecidableEq, Repr

/-- Modelled from the spec: the write effects of `create_epub`
(src/epub.rs:72-246) on the output directory, with the template, container
and OS services (§6) entering only through which stage, if any, fails
(`fails`).  Faithful to the source order: template registration (lines
79-82) precedes path resolution (lines 85-121); `File::create` (line 124)
puts the output file into the directory before the builder is constructed
and before any metadata, cover, resource, content or generation step; no
stage removes it.  Returns the result together with the final directory
contents. -/
def create_epub (fails : EpubStage → Bool) (fs : List String)
    (requested : String) : Except EpubStage String × List String :=
  if fails .addTemplates then (.error .addTemplates, fs)
  else
    let final_path := resolveOutputPath fs requested
    if fails .createFile then (.error .createFile, fs)
    else
      let fs1 := final_path :: fs
      if fails .createBuilder then (.error .createBuilder, fs1)
      else if fails .setMetadata then (.error .setMetadata, fs1)
      else if fails .setCover then (.error .setCover, fs1)
      else if fails .addCoverPage then (.error .addCoverPage, fs1)
      else if fails .addResources then (.error .addResources, fs1)
      else if fails .addArticle then (.error .addArticle, fs1)
      else if fails .generate then (.error .generate, fs1)
      else (.ok final_path, fs1)

/-- src/epub.rs:156-182: the cover image local path, set when the
thumbnail URL has an entry in the image map. -/
def coverLocalPath (image_map : List (String × DownloadedImage))
    (original_thumbnail_url : Option Url) : Option String :=
  match original_thumbnail_url with
  | none => none
  | some thumb =>
    match mapGet image_map thumb.toStr with
    | some d => some d.local_path
    | none => none

/-- src/epub.rs:197-224: the resource-adding loop, which skips every map
entry whose `local_path` equals the registered cover path. -/
def addedResources (image_map : List (String × DownloadedImage))
    (cover_image_local_path : Option String) :
    List (String × DownloadedImage) :=
  image_map.filter (fun p =>
    !(match cover_image_local_path with
      | some cover_path_val => cover_path_val == p.2.local_path
      | none => false))

/-- An HTML fragment: element nodes with attributes and children, and text
nodes.  This is the tree the DOM library (`dom_query`) exposes to
src/extract.rs. -/
inductive Node where
  | elem (tag : String) (attrs : List (String × String)) (children : List Node)
  | text (s : String)
deriving Repr

/-- A fragment is a node list. -/
abbrev Html := List Node

/-- Attribute lookup, the model of `node.attr(k)`. -/
def getAttr (attrs : List (String × String)) (k : String) : Option String :=
  (attrs.find? (fun p => p.1 == k)).map (fun p => p.2)

/-- Attribute update, the model of `node.set_attr(k, v)` on a present
attribute. -/
def setAttrVal (attrs : List (String × String)) (k v : String) :
    List (String × String) :=
  attrs.map (fun p => if p.1 == k then (p.1, v) else p)

/-- src/extract.rs:348-381: the tag allow-list `clean_html` hands to the
sanitizer. -/
def allowedTags : List String :=
  ["p", "br", "strong", "b", "em", "i", "u", "h1", "h2", "h3", "h4", "h5",
   "h6", "ul", "ol", "li", "blockquote", "pre", "code", "a", "img",
   "figure", "figcaption", "table", "thead", "tbody", "tr", "td", "th",
   "span", "video", "source"]

/-- src/extract.rs:382-391: the per-tag attribute allow-list `clean_html`
hands to the sanitizer. -/
def tagAllowedAttrs (tag : String) : List String :=
  if tag == "a" then ["href", "title"]
  else if tag == "img" then ["src", "alt", "title", "width", "height"]
  else if tag == "blockquote" then ["cite"]
  else if tag == "table" then ["summary"]
  else if tag == "td" then ["colspan", "rowspan"]
  else if tag == "th" then ["colspan", "rowspan", "scope"]
  else if tag == "video" then ["src", "controls", "width", "height", "poster"]
  else if tag == "source" then ["src", "type"]
  else []

/-- src/extract.rs:392: the permitted URL schemes. -/
def allowedScheme (s : String) : Bool :=
  s == "http" || s == "https" || s == "mailto"

/-- The scheme of an attribute value, when it is an absolute URL: the
prefix before the first `:` that precedes any `/`, `?` or `#`. -/
def urlSchemeOf (v : String) : Option String :=
  let pre := v.data.takeWhile (fun c => !(c == ':' || c == '/' || c == '?' || c == '#'))
  match v.data.drop pre.length with
  | ':' :: _ => some (String.mk pre)
  | _ => none

/-- Whether the sanitizer treats an attribute as URL-valued (the sanitizer
checks schemes on link/media reference attributes). -/
def isUrlAttrName (name : String) : Bool :=
  name == "href" || name == "src" || name == "cite" || name == "poster"

/-- Scheme filtering of one attribute value: relative references pass,
absolute references must use a permitted scheme. -/
def keepUrlValue (v : String) : Bool :=
  match urlSchemeOf v with
  | none => true
  | some sch => allowedScheme sch

/-- Attribute filtering of the sanitizer under the configuration of
`clean_html`. -/
def filterAttrs (tag : String) (attrs : List (String × String)) :
    List (String × String) :=
  attrs.filter (fun p =>
    (tagAllowedAttrs tag).contains p.1 &&
      (!isUrlAttrName p.1 || keepUrlValue p.2))

mutual
/-- Modelled from the spec: the external sanitizer service (§4.4 step 2,
§6), under the whitelist configuration `clean_html` passes it
(src/extract.rs:344-395): a whitelisted element survives with filtered
attributes, `script`/`style` are removed with their contents, any other
element is unwrapped keeping its (sanitized) children. -/
def sanitizeNode (n : Node) : Html :=
  match n with
  | .text s => [.text s]
  | .elem tag attrs children =>
    if tag == "script" || tag == "style" then []
    else if allowedTags.contains tag then
      [.elem tag (filterAttrs tag attrs) (sanitizeHtml children)]
    else sanitizeHtml children

/-- Sanitization of a fragment (see `sanitizeNode`). -/
def sanitizeHtml (h : Html) : Html :=
  match h with
  | [] => []
  | n :: rest => sanitizeNode n ++ sanitizeHtml rest
end

mutual
/-- src/extract.rs:398, the `&nbsp;` → `&#160;` replace of `clean_html`,
at the tree level: the replace acts on the serialized fragment, which is
text content and attribute values here. -/
def normalizeNbspNode (n : Node) : Node :=
  match n with
  | .text s => .text (strReplace s "&nbsp;" "&#160;")
  | .elem tag attrs children =>
    .elem tag (attrs.map (fun p => (p.1, strReplace p.2 "&nbsp;" "&#160;")))
      (normalizeNbsp children)

/-- Fragment version of `normalizeNbspNode`. -/
def normalizeNbsp (h : Html) : Html :=
  match h with
  | [] => []
  | n :: rest => normalizeNbspNode n :: normalizeNbsp rest
end

/-- Leading-whitespace trim of a serialized fragment, at the tree level: a
serialized fragment starts with whitespace exactly when its first node is
text with leading whitespace. -/
def trimLeadingNodes : Html → Html
  | [] => []
  | .text s :: rest =>
    let t := strTrimLeft s
    if t.isEmpty then trimLeadingNodes rest else .text t :: rest
  | n :: rest => n :: rest

/-- Helper for `trimTrailingNodes`: trims at the head of an already
reversed fragment. -/
def trimTrailingRev : Html → Html
  | [] => []
  | .text s :: rest =>
    let t := strTrimRight s
    if t.isEmpty then trimTrailingRev rest else .text t :: rest
  | n :: rest => n :: rest

/-- Trailing counterpart of `trimLeadingNodes`. -/
def trimTrailingNodes (h : Html) : Html := (trimTrailingRev h.reverse).reverse

/-- src/extract.rs:401, the final `trim` of `clean_html`, at the tree
level. -/
def trimOuter (h : Html) : Html := trimTrailingNodes (trimLeadingNodes h)

/-- src/extract.rs:344-402, `clean_html`: sanitizer pass, then entity
normalization, then trim. -/
def clean_html (article_html : Html) : Html :=
  trimOuter (normalizeNbsp (sanitizeHtml article_html))

/-- src/extract.rs:286-295: the first child `<source>` carrying a `src`
attribute. -/
def firstSourceSrc : Html → Option String
  | [] => none
  | .elem tag attrs _ :: rest =>
    if tag == "source" then
      match getAttr attrs "src" with
      | some s => some s
      | none => firstSourceSrc rest
    else firstSourceSrc rest
  | _ :: rest => firstSourceSrc rest

/-- src/extract.rs:279-318: the paragraph a `<video>` element is replaced
with — a link to the resolved video URL, the raw URL when resolution
fails, or the unavailable placeholder. -/
def videoReplacement (page_base_url : Url) (attrs : List (String × String))
    (children : Html) : Node :=
  let video_url : Option String :=
    match getAttr attrs "src" with
    | some s => some s
    | none => firstSourceSrc children
  match video_url with
  | some url_str =>
    match page_base_url.join url_str with
    | some abs_url =>
      .elem "p" [] [.elem "a" [("href", abs_url.toStr), ("title", "Video content")]
        [.text ("🎥 Watch Video: " ++ abs_url.toStr)]]
    | none =>
      .elem "p" [] [.elem "a" [("href", url_str), ("title", "Video content")]
        [.text ("🎥 Watch Video: " ++ url_str)]]
  | none => .elem "p" [] [.elem "em" [] [.text "Video content not available"]]

mutual
/-- src/extract.rs:271-324, `convert_video_tags_to_links` on one node:
every `<video>` element is replaced by `videoReplacement`. -/
def convertVideoNode (page_base_url : Url) (n : Node) : Node :=
  match n with
  | .text s => .text s
  | .elem tag attrs children =>
    if tag == "video" then videoReplacement page_base_url attrs children
    else .elem tag attrs (convert_video_tags_to_links page_base_url children)

/-- src/extract.rs:271-324, `convert_video_tags_to_links` on a
fragment. -/
def convert_video_tags_to_links (page_base_url : Url) (h : Html) : Html :=
  match h with
  | [] => []
  | n :: rest =>
    convertVideoNode page_base_url n ::
      convert_video_tags_to_links page_base_url rest
end

/-- src/extract.rs:413-437: the `src` rewrite applied to the attributes of
one `<img>` element — `data:` URIs are skipped, a resolvable `src` whose
absolute form is a key of the image map is replaced by the entry's
`local_path`, anything else is kept. -/
def rewriteImgAttrs (image_map : List (String × DownloadedImage))
    (page_base_url : Url) (attrs : List (String × String)) :
    List (String × String) :=
  match getAttr attrs "src" with
  | none => attrs
  | some src_attr_val =>
    if strStartsWith src_attr_val "data:" then attrs
    else
      match page_base_url.join src_attr_val with
      | some abs_url_from_html =>
        match mapGet image_map abs_url_from_html.toStr with
        | some downloaded_image_info =>
          setAttrVal attrs "src" downloaded_image_info.local_path
        | none => attrs
      | none => attrs

mutual
/-- src/extract.rs:404-438, `replace_image_urls` on one node. -/
def replaceImageNode (image_map : List (String × DownloadedImage))
    (page_base_url : Url) (n : Node) : Node :=
  match n with
  | .text s => .text s
  | .elem tag attrs children =>
    .elem tag
      (if tag == "img" then rewriteImgAttrs image_map page_base_url attrs
       else attrs)
      (replace_image_urls image_map page_base_url children)

/-- src/extract.rs:404-438, `replace_image_urls` on a fragment. -/
def replace_image_urls (image_map : List (String × DownloadedImage))
    (page_base_url : Url) (h : Html) : Html :=
  match h with
  | [] => []
  | n :: rest =>
    replaceImageNode image_map page_base_url n ::
      replace_image_urls image_map page_base_url rest
end

mutual
/-- The `src` attributes of all `<img>` elements of a node, in document
order. -/
def imgSrcsNode (n : Node) : List String :=
  match n with
  | .text _ => []
  | .elem tag attrs children =>
    (if tag == "img" then (getAttr attrs "src").toList else []) ++
      imgSrcs children

/-- The `src` attributes of all `<img>` elements of a fragment. -/
def imgSrcs (h : Html) : List String :=
  match h with
  | [] => []
  | n :: rest => imgSrcsNode n ++ imgSrcs rest
end

/-- src/extract.rs:72-81, the transformation tail of `Extractor::process`:
`clean_html` first, then `convert_video_tags_to_links`, then
`replace_image_urls`, on the extracted body. -/
def processBody (image_map : List (String × DownloadedImage))
    (page_url : Url) (body_html : Html) : Html :=
  let cleaned_body_html := clean_html body_html
  let converted := convert_video_tags_to_links page_url cleaned_body_html
  replace_image_urls image_map page_url converted

/-- Modelled from the spec: the §4.4 pipeline in the order the spec
states — video downgrade first, then sanitization, entity normalization,
trim, and finally the image URL rewrite. -/
def specOrderBody (image_map : List (String × DownloadedImage))
    (page_url : Url) (body_html : Html) : Html :=
  replace_image_urls image_map page_url
    (trimOuter (normalizeNbsp (sanitizeHtml
      (convert_video_tags_to_links page_url body_html))))

/-- Numeric value of a decimal digit character, `none` otherwise. -/
def digit? (c : Char) : Option Nat :=
  if 48 ≤ c.toNat && c.toNat ≤ 57 then some (c.toNat - 48) else none

/-- Two-digit number. -/
def d2 (a b : Char) : Option Nat := do
  pure ((← digit? a) * 10 + (← digit? b))

/-- Four-digit number. -/
def d4 (a b c d : Char) : Option Nat := do
  pure (((← digit? a) * 10 + (← digit? b)) * 100 +
    ((← digit? c) * 10 + (← digit? d)))

/-- Gregorian leap year. -/
def isLeapYear (y : Nat) : Bool :=
  (y % 4 == 0 && y % 100 != 0) || y % 400 == 0

/-- Days in a month. -/
def daysInMonth (y m : Nat) : Nat :=
  if m == 2 then (if isLeapYear y then 29 else 28)
  else if m == 4 || m == 6 || m == 9 || m == 11 then 30 else 31

/-- Calendar validity of a civil date. -/
def validDate (y m d : Nat) : Bool :=
  1 ≤ m && m ≤ 12 && 1 ≤ d && d ≤ daysInMonth y m

/-- Validity of a wall-clock time. -/
def validTime (h mi s : Nat) : Bool :=
  h < 24 && mi < 60 && s < 60

/-- Days from the epoch 1970-01-01 to the civil date `y-m-d` (the standard
days-from-civil computation). -/
def daysFromCivil (y m d : Int) : Int :=
  let y2 := if m ≤ 2 then y - 1 else y
  let era := (if 0 ≤ y2 then y2 else y2 - 399) / 400
  let yoe := y2 - era * 400
  let mp := (m + 9) % 12
  let doy := (153 * mp + 2) / 5 + d - 1
  let doe := yoe * 365 + yoe / 4 - yoe / 100 + doy
  era * 146097 + doe - 719468

/-- Seconds from the epoch to a civil date and wall-clock time read in
UTC; the model of chrono's `DateTime<Utc>` value. -/
def civilToSecs (y mo d h mi s : Nat) : Int :=
  daysFromCivil y mo d * 86400 + (h * 3600 + mi * 60 + s : Nat)

/-- A parsed wall-clock date and time, chrono's `NaiveDateTime`. -/
structure NaiveParts where
  year : Nat
  month : Nat
  day : Nat
  hour : Nat
  minute : Nat
  second : Nat
deriving DecidableEq, Repr

/-- Optional fractional seconds: a dot followed by at least one digit, the
digits discarded. -/
def skipFrac (cs : List Char) : Option (List Char) :=
  match cs with
  | '.' :: rest =>
    let ds := rest.takeWhile (fun c => (digit? c).isSome)
    if ds.isEmpty then none else some (rest.drop ds.length)
  | _ => some cs

/-- RFC 3339 numeric offset or `Z`, colon required, consuming the whole
input; result in seconds. -/
def parseOffsetColon : List Char → Option Int
  | ['Z'] => some 0
  | ['z'] => some 0
  | sign :: h1 :: h2 :: ':' :: m1 :: m2 :: [] => do
    let h ← d2 h1 h2
    let m ← d2 m1 m2
    if sign == '+' then some ((h * 3600 + m * 60 : Nat) : Int)
    else if sign == '-' then some (-((h * 3600 + m * 60 : Nat) : Int))
    else none
  | _ => none

/-- chrono `%z`: a signed numeric offset with or without the colon,
consuming the whole input. -/
def parseOffsetLoose (cs : List Char) : Option Int :=
  match cs with
  | sign :: h1 :: h2 :: ':' :: m1 :: m2 :: [] => do
    let h ← d2 h1 h2
    let m ← d2 m1 m2
    if sign == '+' then some ((h * 3600 + m * 60 : Nat) : Int)
    else if sign == '-' then some (-((h * 3600 + m * 60 : Nat) : Int))
    else none
  | sign :: h1 :: h2 :: m1 :: m2 :: [] => do
    let h ← d2 h1 h2
    let m ← d2 m1 m2
    if sign == '+' then some ((h * 3600 + m * 60 : Nat) : Int)
    else if sign == '-' then some (-((h * 3600 + m * 60 : Nat) : Int))
    else none
  | _ => none

/-- Modelled from the spec: chrono `DateTime::parse_from_rfc3339`
(§4.3 "attempt parse as RFC 3339"): full date, `T`, full time, optional
fraction, mandatory offset; the instant is the wall time minus the
offset. -/
def parse_from_rfc3339 (content : String) : Option Int :=
  match content.data with
  | y1 :: y2 :: y3 :: y4 :: '-' :: mo1 :: mo2 :: '-' :: dd1 :: dd2 :: sep ::
      h1 :: h2 :: ':' :: mi1 :: mi2 :: ':' :: s1 :: s2 :: rest =>
    if sep == 'T' || sep == 't' then do
      let y ← d4 y1 y2 y3 y4
      let mo ← d2 mo1 mo2
      let dd ← d2 dd1 dd2
      let h ← d2 h1 h2
      let mi ← d2 mi1 mi2
      let s ← d2 s1 s2
      if validDate y mo dd && validTime h mi s then do
        let rest2 ← skipFrac rest
        let off ← parseOffsetColon rest2
        some (civilToSecs y mo dd h mi s - off)
      else none
    else none
  | _ => none

/-- Shared core of the ISO-style custom formats:
`%Y-%m-%d` + separator + `%H:%M:%S`, returning the parts and the leftover
input. -/
def parseIsoCore (sep : Char) : List Char → Option (NaiveParts × List Char)
  | y1 :: y2 :: y3 :: y4 :: '-' :: mo1 :: mo2 :: '-' :: dd1 :: dd2 :: c ::
      h1 :: h2 :: ':' :: mi1 :: mi2 :: ':' :: s1 :: s2 :: rest =>
    if c == sep then do
      let y ← d4 y1 y2 y3 y4
      let mo ← d2 mo1 mo2
      let dd ← d2 dd1 dd2
      let h ← d2 h1 h2
      let mi ← d2 mi1 mi2
      let s ← d2 s1 s2
      if validDate y mo dd && validTime h mi s then
        some (⟨y, mo, dd, h, mi, s⟩, rest)
      else none
    else none
  | _ => none

/-- Abbreviated English month name, case-insensitively. -/
def monthAbbrevNum (s : String) : Option Nat :=
  let t := String.mk (s.data.map Char.toLower)
  if t == "jan" then some 1 else if t == "feb" then some 2
  else if t == "mar" then some 3 else if t == "apr" then some 4
  else if t == "may" then some 5 else if t == "jun" then some 6
  else if t == "jul" then some 7 else if t == "aug" then some 8
  else if t == "sep" then some 9 else if t == "oct" then some 10
  else if t == "nov" then some 11 else if t == "dec" then some 12
  else none

/-- Full English month name, case-insensitively. -/
def monthFullNum (s : String) : Option Nat :=
  let t := String.mk (s.data.map Char.toLower)
  if t == "january" then some 1 else if t == "february" then some 2
  else if t == "march" then some 3 else if t == "april" then some 4
  else if t == "may" then some 5 else if t == "june" then some 6
  else if t == "july" then some 7 else if t == "august" then some 8
  else if t == "september" then some 9 else if t == "october" then some 10
  else if t == "november" then some 11 else if t == "december" then some 12
  else none

/-- The human-readable formats `%b %d, %Y %I:%M %p` and
`%B %d, %Y %I:%M %p`: month name, padded day, comma, year, 12-hour
time, meridiem. -/
def parseMonthNameFmt (full : Bool) (cs : List Char) : Option NaiveParts := do
  let nameCs := cs.takeWhile (fun c => c.isAlpha)
  let mo ← (if full then monthFullNum else monthAbbrevNum) (String.mk nameCs)
  match cs.drop nameCs.length with
  | ' ' :: dd1 :: dd2 :: ',' :: ' ' :: y1 :: y2 :: y3 :: y4 :: ' ' ::
      h1 :: h2 :: ':' :: mi1 :: mi2 :: ' ' :: a :: p :: [] => do
    let dd ← d2 dd1 dd2
    let y ← d4 y1 y2 y3 y4
    let h12 ← d2 h1 h2
    let mi ← d2 mi1 mi2
    let isPm ←
      if (a == 'P' || a == 'p') && (p == 'M' || p == 'm') then some true
      else if (a == 'A' || a == 'a') && (p == 'M' || p == 'm') then some false
      else none
    if 1 ≤ h12 && h12 ≤ 12 && mi < 60 && validDate y mo dd then
      let h := if isPm then (if h12 == 12 then 12 else h12 + 12)
               else (if h12 == 12 then 0 else h12)
      some ⟨y, mo, dd, h, mi, 0⟩
    else none
  | _ => none

/-- The ordered custom formats of src/extract.rs:193-200
(`formats_to_try`). -/
inductive DateFmt
  | isoTz
  | isoMsTz
  | spacedTz
  | monthAbbrev
  | monthFull
  | dateOnly
deriving DecidableEq, Repr

/-- src/extract.rs:193-200: the format list, in source order. -/
def formats_to_try : List DateFmt :=
  [.isoTz, .isoMsTz, .spacedTz, .monthAbbrev, .monthFull, .dateOnly]

/-- Modelled from the spec: chrono `NaiveDateTime::parse_from_str` for
each format of `formats_to_try` (§4.3's "ordered list of explicit
date/time patterns").  The `%z` offset is parsed and then discarded, as it
is by `NaiveDateTime`; `%Y-%m-%d` carries no time fields, so the
`NaiveDateTime` parse of the date-only format fails. -/
def parseNaiveDateTimeFmt (fmt : DateFmt) (content : String) :
    Option NaiveParts :=
  match fmt with
  | .isoTz => do
    let (parts, rest) ← parseIsoCore 'T' content.data
    let _ ← parseOffsetLoose rest
    some parts
  | .isoMsTz => do
    let (parts, rest) ← parseIsoCore 'T' content.data
    match rest with
    | '.' :: f1 :: f2 :: f3 :: rest2 => do
      let _ ← d2 f1 f2
      let _ ← digit? f3
      let _ ← parseOffsetLoose rest2
      some parts
    | _ => none
  | .spacedTz => do
    let (parts, rest) ← parseIsoCore ' ' content.data
    match rest with
    | ' ' :: rest2 => do
      let _ ← parseOffsetLoose rest2
      some parts
    | _ => none
  | .monthAbbrev => parseMonthNameFmt false content.data
  | .monthFull => parseMonthNameFmt true content.data
  | .dateOnly => none

/-- Modelled from the spec: chrono `NaiveDate::parse_from_str` for each
format — the same fields are parsed, only the date part is kept. -/
def parseNaiveDateFmt (fmt : DateFmt) (content : String) :
    Option (Nat × Nat × Nat) :=
  match fmt with
  | .dateOnly =>
    match content.data with
    | y1 :: y2 :: y3 :: y4 :: '-' :: mo1 :: mo2 :: '-' :: dd1 :: dd2 :: [] => do
      let y ← d4 y1 y2 y3 y4
      let mo ← d2 mo1 mo2
      let dd ← d2 dd1 dd2
      if validDate y mo dd then some (y, mo, dd) else none
    | _ => none
  | _ =>
    (parseNaiveDateTimeFmt fmt content).map (fun p => (p.year, p.month, p.day))

/-- src/extract.rs:201-224: the loop over `formats_to_try`, attempting the
datetime parse then the date-only parse (normalized to midnight) for each
format. -/
def tryFormatsFrom : List DateFmt → String → Option Int
  | [], _ => none
  | fmt :: rest, content =>
    match parseNaiveDateTimeFmt fmt content with
    | some parts =>
      some (civilToSecs parts.year parts.month parts.day parts.hour
        parts.minute parts.second)
    | none =>
      match parseNaiveDateFmt fmt content with
      | some (y, mo, dd) => some (civilToSecs y mo dd 0 0 0)
      | none => tryFormatsFrom rest content

/-- src/extract.rs:188-224: the whole ordered parse chain applied to one
meta content string — RFC 3339 first, then the custom formats. -/
def dateParseChain (content : String) : Option Int :=
  match parse_from_rfc3339 content with
  | some t => some t
  | none => tryFormatsFrom formats_to_try content

/-- A `<head>` snapshot: its meta elements, each as an attribute list, in
document order. -/
abbrev HeadDoc := List (List (String × String))

/-- `document.select("meta[k=v]")` followed by `.nodes().first()`. -/
def selectFirstMeta (doc : HeadDoc) (k v : String) :
    Option (List (String × String)) :=
  doc.find? (fun attrs => getAttr attrs k == some v)

/-- src/extract.rs:176-180: the meta selectors, in source order, as
attribute-key/value pairs. -/
def meta_selectors : List (String × String) :=
  [("property", "article:published_time"), ("name", "publish-date"),
   ("name", "date")]

/-- The selector loop of `_extract_date_from_meta_tags`
(src/extract.rs:181-228): for each selector in turn, take the first
matching element; a missing or blank `content`, like a content no parse
accepts, falls through to the next selector. -/
def extractDateGo (doc : HeadDoc) : List (String × String) → Option Int
  | [] => none
  | (k, v) :: rest =>
    match selectFirstMeta doc k v with
    | none => extractDateGo doc rest
    | some element =>
      match getAttr element "content" with
      | none => extractDateGo doc rest
      | some content =>
        if (strTrim content).isEmpty then extractDateGo doc rest
        else
          match dateParseChain content with
          | some t => some t
          | none => extractDateGo doc rest

/-- src/extract.rs:175-230, `_extract_date_from_meta_tags`. -/
def extract_date_from_meta_tags (doc : HeadDoc) : Option Int :=
  extractDateGo doc meta_selectors

mutual
/-- Whether a tag occurs in a node (an observation used to separate
fragments). -/
def nodeHasTag (t : String) : Node → Bool
  | .text _ => false
  | .elem tag _ children => tag == t || htmlHasTag t children

/-- Whether a tag occurs in a fragment. -/
def htmlHasTag (t : String) : Html → Bool
  | [] => false
  | n :: rest => nodeHasTag t n || htmlHasTag t rest
end

/-- The per-`src` rewrite `replace_image_urls` performs on one `<img>`
`src` value (src/extract.rs:414-435): `data:` URIs and unresolvable or
unmapped references stay, mapped references become the entry's
`local_path`. -/
def rewriteSrcStr (image_map : List (String × DownloadedImage))
    (page_base_url : Url) (s : String) : String :=
  if strStartsWith s "data:" then s
  else
    match page_base_url.join s with
    | some abs_url =>
      match mapGet image_map abs_url.toStr with
      | some d => d.local_path
      | none => s
    | none => s

/-- Modelled from the spec: §4.2 "Local filename generation: last
non-empty path segment of the source URL if present, else a freshly
generated random unique token" — the reading claim C7 asserts, to be
compared with `generate_unique_filename`. -/
def specLastNonEmptySegment (fresh : String) (url : Url) : String :=
  match url.pathSegments with
  | none => fresh
  | some segments =>
    match (segments.filter (fun s => !s.isEmpty)).getLast? with
    | none => fresh
    | some name => name

/-- src/extract.rs:47-48: `process` opens with
`self.fetcher.fetch_content(original_url)?`; the remainder of the
pipeline is the continuation `rest`, so a fetch error is the result of
the whole request. -/
def process_fetch_stage {α : Type} (send : Url → Except String HttpResponse)
    (rest : FetchedContent → Except String α) (original_url : Url) :
    Except String α :=
  match fetch_content send original_url with
  | .error e => .error e
  | .ok content => rest content

/-! Concrete instances used by the theorems below. -/

/-- A nytimes URL without a query string. -/
def nytUrl : Url :=
  { scheme := "https", host := some "www.nytimes.com",
    path := "/2024/03/01/science/article.html", query := none }

/-- A medium URL. -/
def mediumUrl : Url :=
  { scheme := "https", host := some "medium.com",
    path := "/story", query := some "x=1" }

/-- A URL of a host no normalization rule matches. -/
def plainUrl : Url :=
  { scheme := "https", host := some "example.com", path := "/p", query := none }

/-- A page base URL for the pipeline examples. -/
def pageUrl : Url :=
  { scheme := "https", host := some "x.test", path := "/p", query := none }

/-- A fragment whose `<video>` wraps its `<source>` in a non-whitelisted
`<div>`: sanitization unwraps the `div`, so running the video downgrade
before or after sanitization is observable. -/
def videoFragment : Html :=
  [.elem "video" [] [.elem "div" [] [.elem "source" [("src", "m.mp4")] []]]]

/-- An image URL whose path ends with a slash after non-empty segments. -/
def trailingSlashUrl : Url :=
  { scheme := "https", host := some "img.example.com", path := "/a/b/",
    query := none }

/-- Two distinct image URLs sharing their final path segment. -/
def imgUrlA : Url :=
  { scheme := "https", host := some "a.com", path := "/pic.jpg", query := none }

/-- See `imgUrlA`. -/
def imgUrlB : Url :=
  { scheme := "https", host := some "b.com", path := "/pic.jpg", query := none }

/-- A transport oracle answering every image GET with a JPEG body. -/
def sendJpeg : Url → Except String ImageResponse :=
  fun _ => .ok { status := 200, contentType := some "image/jpeg", body := .ok [7] }

/-- A transport oracle failing one image URL and serving the other. -/
def sendOneFails : Url → Except String ImageResponse :=
  fun u => if u = imgUrlB then .error "connection refused" else
    .ok { status := 200, contentType := some "image/png", body := .ok [3] }

/-- The image map `download_image_list` builds from `sendJpeg` on
`[imgUrlA, imgUrlB]`: distinct keys, one shared `local_path`. -/
def collidingMap : List (String × DownloadedImage) :=
  [("https://a.com/pic.jpg",
    { local_path := "images/pic.jpg.jpg", data := [7], mime_type := "image/jpeg" }),
   ("https://b.com/pic.jpg",
    { local_path := "images/pic.jpg.jpg", data := [7], mime_type := "image/jpeg" })]

/-- A head snapshot carrying an RFC 3339 publish time. -/
def headRfc3339 : HeadDoc :=
  [[("property", "article:published_time"), ("content", "2024-03-01T10:00:00Z")]]

/-- A head snapshot carrying a date-only publish time. -/
def headDateOnly : HeadDoc :=
  [[("property", "article:published_time"), ("content", "2024-03-01")]]

/-- A concrete document and image map exercising the image rewrite: one
mapped image, one unmapped, one `data:` URI. -/
def rewriteDoc : Html :=
  [.elem "p" []
    [.elem "img" [("src", "/pic.jpg")] [],
     .elem "img" [("src", "/missing.png")] [],
     .elem "img" [("src", "data:image/png;base64,AA")] []]]

/-- The image map for `rewriteDoc`, keyed by the resolved URL of its
first image. -/
def rewriteMap : List (String × DownloadedImage) :=
  [("https://x.test/pic.jpg",
    { local_path := "images/pic.jpg.jpg", data := [7], mime_type := "image/jpeg" })]

/-! ### Theorems -/

/-- Membership after a `mapInsert`: the binding was already present, or it
is the inserted one. -/
theorem mapInsert_mem {α : Type} {m : List (String × α)} {kI : String}
    {v : α} {k : String} {d : α} (h : (k, d) ∈ mapInsert m kI v) :
    (k, d) ∈ m ∨ (k = kI ∧ d = v) := by
  unfold mapInsert at h
  by_cases hc : m.any (fun p => p.1 == kI)
  · rw [if_pos hc] at h
    rcases List.mem_map.mp h with ⟨p, hp, he⟩
    by_cases hk : p.1 == kI
    · rw [if_pos hk] at he
      right
      exact ⟨(Prod.mk.injEq _ _ _ _ ▸ he).1.symm, (Prod.mk.injEq _ _ _ _ ▸ he).2.symm⟩
    · rw [if_neg hk] at he
      left
      exact he ▸ hp
  · rw [if_neg hc] at h
    rcases List.mem_append.mp h with h | h
    · left; exact h
    · right
      have := List.mem_singleton.mp h
      exact ⟨(Prod.mk.injEq _ _ _ _ ▸ this).1, (Prod.mk.injEq _ _ _ _ ▸ this).2⟩

/-- Every binding of the download fold comes from the accumulator or from
a successfully downloaded input URL, carrying the path built from the
generated base name and the MIME-derived extension. -/
theorem downloadFold_mem (send : Url → Except String ImageResponse)
    (fresh : Url → String) :
    ∀ (urls : List Url) (acc : List (String × DownloadedImage))
      (k : String) (d : DownloadedImage),
      (k, d) ∈ urls.foldl (downloadStep send fresh) acc →
      (k, d) ∈ acc ∨
        ∃ u, u ∈ urls ∧ k = u.toStr ∧
          ∃ data mime, download_image send u = .ok (data, mime) ∧
            d = { local_path := "images/" ++ generate_unique_filename (fresh u) u ++
                    "." ++ mime_type_to_extension mime,
                  data := data, mime_type := mime } := by
  intro urls
  induction urls with
  | nil =>
    intro acc k d h
    left
    exact h
  | cons u rest ih =>
    intro acc k d h
    rw [List.foldl_cons] at h
    rcases ih (downloadStep send fresh acc u) k d h with hacc | ⟨u2, hu2, hk, data, mime, hok, hd⟩
    · unfold downloadStep at hacc
      split at hacc
      next data mime heq =>
        rcases mapInsert_mem hacc with hin | ⟨hk, hd⟩
        · left; exact hin
        · right
          exact ⟨u, List.mem_cons_self u rest, hk, data, mime, heq, hd⟩
      next => left; exact hacc
    · right
      exact ⟨u2, List.mem_cons_of_mem u hu2, hk, data, mime, hok, hd⟩



/-- C2 (counterexample): URL normalization is not idempotent on a
nytimes.com URL — the first pass sets the query to `print=true`, the
second appends `&print=true` again, so the claimed idempotence fails. -/
theorem get_print_friendly_url_nyt_counterexample :
    get_print_friendly_url (get_print_friendly_url nytUrl) ≠
      get_print_friendly_url nytUrl := by
  decide

/-- C2 (amended): URL normalization is idempotent for every URL whose
host matches no rule (identity) or matches the medium.com rule (the query
is overwritten with a constant), and for `en.`-prefixed wikipedia hosts;
it is not idempotent for nytimes.com / washingtonpost.com hosts, whose
rule appends `print=true` on every application. -/
theorem get_print_friendly_url_idempotent_amended (u : Url)
    (hw : strContains u.hostStr "wikipedia.org" = false ∨
      (strContains u.hostStr "wikipedia.org" = true ∧
        strStartsWith u.hostStr "en." = true))
    (hn : strContains u.hostStr "nytimes.com" = false)
    (hp : strContains u.hostStr "washingtonpost.com" = false) :
    get_print_friendly_url (get_print_friendly_url u) =
      get_print_friendly_url u := by
  rcases hw with hw | ⟨hw, he⟩
  · by_cases hm : strContains u.hostStr "medium.com"
    · have h1 : get_print_friendly_url u = { u with query := some "format=print" } := by
        unfold get_print_friendly_url
        simp [hw, hm]
      have h2 : ({ u with query := some "format=print" } : Url).hostStr = u.hostStr := rfl
      rw [h1]
      unfold get_print_friendly_url
      simp [h2, hw, hm]
    · have h1 : get_print_friendly_url u = u := by
        unfold get_print_friendly_url
        simp [hw, hm, hn, hp]
      rw [h1, h1]
  · have h1 : get_print_friendly_url u = { u with host := some "en.m.wikipedia.org" } := by
      unfold get_print_friendly_url
      simp [hw, he]
    have h2 : ({ u with host := some "en.m.wikipedia.org" } : Url).hostStr =
        "en.m.wikipedia.org" := rfl
    have c1 : strContains "en.m.wikipedia.org" "wikipedia.org" = true := rfl
    have c2 : strStartsWith "en.m.wikipedia.org" "en." = true := rfl
    rw [h1]
    unfold get_print_friendly_url
    simp [h2, c1, c2]

/-- Witness for C2 (amended) at the medium URL. -/
theorem get_print_friendly_url_idempotent_amended_witness :
    get_print_friendly_url (get_print_friendly_url mediumUrl) =
      get_print_friendly_url mediumUrl :=
  get_print_friendly_url_idempotent_amended mediumUrl (Or.inl (by decide))
    (by decide) (by decide)

/-- C6 (counterexample): a page GET answered with HTTP status 500 and a
decodable body makes `fetch_content` return `Ok` with that body — the
response status is never inspected, so an unsuccessful HTTP response does
not cause an error as claimed. -/
theorem fetch_content_status_counterexample :
    fetch_content (fun _ => .ok { status := 500, text := .ok "Server Error" })
        plainUrl =
      .ok { original_url := plainUrl, url := plainUrl,
            html_string := "Server Error" } := by
  rfl

/-- C6 (amended): `fetch_content` returns an error exactly on a transport
error or a body-decode error of the single page GET, and such an error is
the result of the whole request (`process` propagates it); an
unsuccessful HTTP status with a decodable body yields `Ok`. -/
theorem fetch_content_error_amended {α : Type}
    (send : Url → Except String HttpResponse)
    (rest : FetchedContent → Except String α) (u : Url) :
    (∀ e, send (get_print_friendly_url u) = .error e →
      fetch_content send u = .error e) ∧
    (∀ r e, send (get_print_friendly_url u) = .ok r → r.text = .error e →
      fetch_content send u = .error e) ∧
    (∀ r h, send (get_print_friendly_url u) = .ok r → r.text = .ok h →
      fetch_content send u =
        .ok { original_url := u, url := get_print_friendly_url u,
              html_string := h }) ∧
    (∀ e, fetch_content send u = .error e →
      process_fetch_stage send rest u = .error e) := by
  refine ⟨?_, ?_, ?_, ?_⟩
  · intro e h
    simp [fetch_content, h]
  · intro r e hs ht
    simp [fetch_content, hs, ht]
  · intro r h hs ht
    simp [fetch_content, hs, ht]
  · intro e h
    simp [process_fetch_stage, h]

/-- Witness for C6 (amended): a transport failure at the concrete URL. -/
theorem fetch_content_error_amended_witness :
    fetch_content (fun _ => .error "dns failure") plainUrl =
      .error "dns failure" :=
  (fetch_content_error_amended (α := Unit) (fun _ => .error "dns failure")
    (fun _ => .ok ()) plainUrl).1 "dns failure" rfl

/-- C7 (counterexample): for the URL `https://img.example.com/a/b/` the
source returns the fresh random token — the final, empty segment is the
only one consulted — while the claimed rule returns the last non-empty
segment `b`. -/
theorem generate_unique_filename_counterexample :
    generate_unique_filename "0a1b2c3d" trailingSlashUrl ≠
      specLastNonEmptySegment "0a1b2c3d" trailingSlashUrl := by
  decide

/-- C7 (amended): the local base name is the final path segment when that
segment is non-empty; when the final segment is empty (trailing slash) or
there are no path segments, the fresh random token is used — earlier
non-empty segments are never consulted.  Inside `download_image_list`
the bundled path is `images/<base>.<ext>` with the extension taken from
the MIME classification of the download. -/
theorem generate_unique_filename_amended (fresh : String) (url : Url) :
    (∀ segs name, url.pathSegments = some segs → segs.getLast? = some name →
      name.isEmpty = false → generate_unique_filename fresh url = name) ∧
    (∀ segs, url.pathSegments = some segs → segs.getLast? = some "" →
      generate_unique_filename fresh url = fresh) ∧
    (url.pathSegments = none → generate_unique_filename fresh url = fresh) ∧
    (∀ (send : Url → Except String ImageResponse) (freshF : Url → String)
      (urls : List Url) (m : List (String × DownloadedImage))
      (k : String) (d : DownloadedImage),
      download_image_list send freshF urls = .ok m → (k, d) ∈ m →
      ∃ u mime, u ∈ urls ∧
        d.local_path = "images/" ++ generate_unique_filename (freshF u) u ++
          "." ++ mime_type_to_extension mime) := by
  refine ⟨?_, ?_, ?_, ?_⟩
  · intro segs name hseg hlast hne
    simp [generate_unique_filename, hseg, hlast, hne]
  · intro segs hseg hlast
    simp [generate_unique_filename, hseg, hlast,
      show "".isEmpty = true from rfl]
  · intro hnone
    simp [generate_unique_filename, hnone]
  · intro send freshF urls m k d hok hmem
    have hm : m = urls.foldl (downloadStep send freshF) [] := by
      unfold download_image_list at hok
      exact (Except.ok.injEq _ _ ▸ hok).symm
    rw [hm] at hmem
    rcases downloadFold_mem send freshF urls [] k d hmem with h0 | ⟨u, hu, _, data, mime, _, hd⟩
    · cases h0
    · exact ⟨u, mime, hu, by rw [hd]⟩

/-- Witness for C7 (amended): the non-empty final segment `pic.jpg` of
`imgUrlA` is the base name. -/
theorem generate_unique_filename_amended_witness :
    generate_unique_filename "0a1b2c3d" imgUrlA = "pic.jpg" :=
  (generate_unique_filename_amended "0a1b2c3d" imgUrlA).1 ["pic.jpg"] "pic.jpg"
    (by decide) (by decide) (by decide)

/-- C5: `download_image_list` is total and per-item resilient — for every
transport behaviour and every input URL set it returns `Ok`, and every
key of the returned map is the string form of an input URL whose
individual download succeeded; failed URLs are simply absent. -/
theorem download_image_list_never_fails
    (send : Url → Except String ImageResponse) (fresh : Url → String)
    (image_urls : List Url) :
    ∃ m, download_image_list send fresh image_urls = .ok m ∧
      ∀ k d, (k, d) ∈ m →
        ∃ u, u ∈ image_urls ∧ k = u.toStr ∧
          (download_image send u).isOk = true := by
  refine ⟨_, rfl, ?_⟩
  intro k d h
  rcases downloadFold_mem send fresh image_urls [] k d h with h0 | ⟨u, hu, hk, data, mime, hok, _⟩
  · cases h0
  · exact ⟨u, hu, hk, by rw [hok]; rfl⟩

/-- Witness for C5 at a concrete oracle that fails one of two URLs. -/
theorem download_image_list_never_fails_witness :
    ∃ m, download_image_list sendOneFails (fun _ => "f") [imgUrlA, imgUrlB] = .ok m ∧
      ∀ k d, (k, d) ∈ m →
        ∃ u, u ∈ [imgUrlA, imgUrlB] ∧ k = u.toStr ∧
          (download_image sendOneFails u).isOk = true :=
  download_image_list_never_fails sendOneFails (fun _ => "f") [imgUrlA, imgUrlB]

/-- C1 (code_bug exhibit): run `create_epub` with every stage succeeding
except the final container generation, in an empty directory with
requested name `title.epub`.  The source creates the output file
(src/epub.rs:124) before building the container, so the call returns the
generation error while `title.epub` has been created and is left in the
directory — contradicting the claim that no file exists at the resolved
path after a fatal error. -/
theorem create_epub_partial_file_on_generate_failure :
    create_epub (fun st => st == .generate) [] "title.epub" =
      (.error .generate, ["title.epub"]) := by
  rfl

/-- A digit character evaluates back to its digit. -/
theorem charVal_digitChar (d : Nat) (h : d < 10) :
    charVal (digitChar d) = d := by
  interval_cases d <;> rfl

/-- `parseDigits` over a snoc. -/
theorem parseDigits_append1 (xs : List Char) (c : Char) :
    parseDigits (xs ++ [c]) = 10 * parseDigits xs + charVal c := by
  simp [parseDigits, List.foldl_append]

/-- The decimal numeral parses back to its value whenever the fuel
suffices. -/
theorem parseDigits_natCharsFuel :
    ∀ (fuel n : Nat), n ≤ fuel → parseDigits (natCharsFuel fuel n) = n := by
  intro fuel
  induction fuel with
  | zero =>
    intro n hn
    have h0 : n = 0 := Nat.le_zero.mp hn
    subst h0
    simp [natCharsFuel, parseDigits, charVal_digitChar 0 (by omega)]
  | succ fuel ih =>
    intro n hn
    by_cases h10 : n < 10
    · simp [natCharsFuel, h10, parseDigits, charVal_digitChar n h10]
    · have hdiv : n / 10 < n := Nat.div_lt_self (by omega) (by omega)
      have hrec := ih (n / 10) (by omega)
      have hmod : n % 10 < 10 := Nat.mod_lt n (by omega)
      have hdm := Nat.div_add_mod n 10
      simp only [natCharsFuel, h10, if_false, parseDigits_append1, hrec,
        charVal_digitChar (n % 10) hmod]
      omega

/-- The decimal numeral of Rust `format!` is injective. -/
theorem natChars_inj {m n : Nat} (h : natChars m = natChars n) : m = n := by
  have hm := parseDigits_natCharsFuel m m le_rfl
  have hn := parseDigits_natCharsFuel n n le_rfl
  unfold natChars at h
  rw [← hm, ← hn, h]

/-- Distinct counters give distinct collision candidates. -/
theorem collisionCandidate_inj (stem ext : String) {m n : Nat}
    (h : collisionCandidate stem ext m = collisionCandidate stem ext n) :
    m = n := by
  unfold collisionCandidate at h
  apply natChars_inj
  split at h
  · have hd := congrArg String.data h
    simp only [String.data_append, List.append_assoc] at hd
    have h1 := List.append_cancel_left (List.append_cancel_left hd)
    exact List.append_cancel_right h1
  · have hd := congrArg String.data h
    simp only [String.data_append, List.append_assoc] at hd
    have h1 := List.append_cancel_left (List.append_cancel_left hd)
    exact List.append_cancel_right h1

/-- Either every candidate tried within the fuel is taken, or the search
result is free. -/
theorem searchFree_spec (fs : List String) (stem ext : String) :
    ∀ (fuel c : Nat),
      (∀ i, i < fuel → collisionCandidate stem ext (c + i) ∈ fs) ∨
        collisionCandidate stem ext (searchFree fs stem ext fuel c) ∉ fs := by
  intro fuel
  induction fuel with
  | zero =>
    intro c
    left
    intro i hi
    exact absurd hi (Nat.not_lt_zero i)
  | succ fuel ih =>
    intro c
    by_cases hc : collisionCandidate stem ext c ∈ fs
    · rcases ih (c + 1) with hall | hfree
      · left
        intro i hi
        cases i with
        | zero => simpa using hc
        | succ j =>
          have := hall j (by omega)
          have harith : c + 1 + j = c + (j + 1) := by omega
          rwa [harith] at this
      · right
        simpa [searchFree, hc] using hfree
    · right
      simp only [searchFree, if_neg hc]
      exact hc

/-- Within `fs.length + 1` tries a free candidate is found: the tried
candidates are pairwise distinct, so they cannot all lie in `fs`. -/
theorem searchFree_finds_free (fs : List String) (stem ext : String) :
    collisionCandidate stem ext
      (searchFree fs stem ext (fs.length + 1) 1) ∉ fs := by
  rcases searchFree_spec fs stem ext (fs.length + 1) 1 with hall | hfree
  · exfalso
    have hmaps : ∀ i : Fin (fs.length + 1),
        collisionCandidate stem ext (1 + i.val) ∈ fs.toFinset := by
      intro i
      rw [List.mem_toFinset]
      have := hall i.val i.isLt
      have harith : 1 + i.val = 1 + i.val := rfl
      simpa [Nat.add_comm] using this
    have hinj : Set.InjOn
        (fun i : Fin (fs.length + 1) => collisionCandidate stem ext (1 + i.val))
        (Finset.univ : Finset (Fin (fs.length + 1))) := by
      intro i _ j _ hij
      have := collisionCandidate_inj stem ext hij
      exact Fin.ext (by omega)
    have hcard := Finset.card_le_card_of_injOn _ (fun i _ => hmaps i) hinj
    rw [Finset.card_univ, Fintype.card_fin] at hcard
    have hle := fs.toFinset_card_le
    omega
  · exact hfree

/-- C8: output-path collision avoidance — the resolved path never names
an existing file (so nothing is overwritten); a free requested path is
kept as is, and a taken `title.epub` resolves to `title (1).epub`; two
successful runs of `create_epub` with the same title into the same
directory produce `title.epub` then `title (1).epub`. -/
theorem create_epub_collision_policy :
    (∀ fs path, resolveOutputPath fs path ∉ fs) ∧
    resolveOutputPath [] "title.epub" = "title.epub" ∧
    resolveOutputPath ["title.epub"] "title.epub" = "title (1).epub" ∧
    create_epub (fun _ => false) [] "title.epub" =
      (.ok "title.epub", ["title.epub"]) ∧
    create_epub (fun _ => false) ["title.epub"] "title.epub" =
      (.ok "title (1).epub", ["title (1).epub", "title.epub"]) := by
  refine ⟨?_, by rfl, by rfl, by rfl, by rfl⟩
  intro fs path
  unfold resolveOutputPath
  split
  · exact searchFree_finds_free fs _ _
  · assumption

/-- Witness for C8 at the concrete one-file directory. -/
theorem create_epub_collision_policy_witness :
    resolveOutputPath ["title.epub"] "title.epub" ∉ ["title.epub"] :=
  create_epub_collision_policy.1 ["title.epub"] "title.epub"

/-- C3 (counterexample): on the fragment
`<video><div><source src="m.mp4"></div></video>` the source pipeline
(sanitize first, which unwraps the `div` and exposes the `source`, then
downgrade) produces a link paragraph, while the pipeline in the spec's
stated order (downgrade first, which sees no direct `source` child)
produces the unavailable placeholder — so the steps are not applied in
the spec's stated order. -/
theorem process_pipeline_order_counterexample :
    processBody [] pageUrl videoFragment ≠ specOrderBody [] pageUrl videoFragment := by
  intro h
  have h2 := congrArg (htmlHasTag "em") h
  rw [show htmlHasTag "em" (processBody [] pageUrl videoFragment) = false from rfl,
     show htmlHasTag "em" (specOrderBody [] pageUrl videoFragment) = true from rfl] at h2
  exact Bool.noConfusion h2

/-- C3 (amended): the transformation steps are applied in the source
order — whitelist sanitization (with `<video>`/`<source>` whitelisted so
they survive it), then entity normalization, then the whitespace trim,
then the video downgrade, and finally the image URL rewrite. -/
theorem process_pipeline_actual_order
    (image_map : List (String × DownloadedImage)) (page_url : Url)
    (body_html : Html) :
    processBody image_map page_url body_html =
      replace_image_urls image_map page_url
        (convert_video_tags_to_links page_url
          (trimOuter (normalizeNbsp (sanitizeHtml body_html)))) := rfl

/-- Updating a present attribute makes lookup return the new value. -/
theorem getAttr_setAttrVal (a : List (String × String)) (k v : String) :
    ∀ s, getAttr a k = some s → getAttr (setAttrVal a k v) k = some v := by
  induction a with
  | nil =>
    intro s h
    cases h
  | cons p rest ih =>
    intro s h
    by_cases hk : p.1 == k
    · simp [setAttrVal, getAttr, List.find?, hk]
    · rw [Bool.not_eq_true] at hk
      have hrest : getAttr rest k = some s := by
        have h2 := h
        simp [getAttr, List.find?, hk] at h2
        obtain ⟨a, ha⟩ := h2
        simp [getAttr, ha]
      have hgoal := ih s hrest
      simp [setAttrVal, getAttr, List.find?, hk] at hgoal ⊢
      exact hgoal

/-- The `src` lookup after `rewriteImgAttrs` is the per-`src` rewrite of
the original lookup. -/
theorem getAttr_rewriteImgAttrs (image_map : List (String × DownloadedImage))
    (page_base_url : Url) (attrs : List (String × String)) :
    getAttr (rewriteImgAttrs image_map page_base_url attrs) "src" =
      (getAttr attrs "src").map (rewriteSrcStr image_map page_base_url) := by
  cases hsrc : getAttr attrs "src" with
  | none =>
    simp [rewriteImgAttrs, hsrc]
  | some s =>
    by_cases hdata : strStartsWith s "data:"
    · simp [rewriteImgAttrs, rewriteSrcStr, hsrc, hdata]
    · cases hjoin : page_base_url.join s with
      | none => simp [rewriteImgAttrs, rewriteSrcStr, hsrc, hdata, hjoin]
      | some abs =>
        cases hget : mapGet image_map abs.toStr with
        | none => simp [rewriteImgAttrs, rewriteSrcStr, hsrc, hdata, hjoin, hget]
        | some d =>
          simp [rewriteImgAttrs, rewriteSrcStr, hsrc, hdata, hjoin, hget,
            getAttr_setAttrVal attrs "src" d.local_path s hsrc]

/-- A successful map lookup names a binding of the map. -/
theorem mapGet_mem {α : Type} {m : List (String × α)} {key : String} {d : α}
    (h : mapGet m key = some d) : ∃ k, (k, d) ∈ m := by
  unfold mapGet at h
  cases hf : m.find? (fun p => p.1 == key) with
  | none =>
    rw [hf] at h
    cases h
  | some p =>
    obtain ⟨k0, v0⟩ := p
    rw [hf] at h
    have hp := List.mem_of_find?_eq_some hf
    have hv : v0 = d := by
      simpa using h
    exact ⟨k0, hv ▸ hp⟩

/-- The per-`src` rewrite either keeps the original string or produces
the `local_path` of some map binding. -/
theorem rewriteSrcStr_cases (image_map : List (String × DownloadedImage))
    (page_base_url : Url) (s : String) :
    rewriteSrcStr image_map page_base_url s = s ∨
      ∃ k d, (k, d) ∈ image_map ∧
        d.local_path = rewriteSrcStr image_map page_base_url s := by
  by_cases hdata : strStartsWith s "data:"
  · left
    simp [rewriteSrcStr, hdata]
  · cases hjoin : page_base_url.join s with
    | none =>
      left
      simp [rewriteSrcStr, hdata, hjoin]
    | some abs =>
      cases hget : mapGet image_map abs.toStr with
      | none =>
        left
        simp [rewriteSrcStr, hdata, hjoin, hget]
      | some d =>
        right
        rcases mapGet_mem hget with ⟨k, hk⟩
        exact ⟨k, d, hk, by simp [rewriteSrcStr, hdata, hjoin, hget]⟩

mutual
/-- The `<img>` `src` list of a rewritten node is the pointwise rewrite
of the original list. -/
theorem imgSrcsNode_replace (image_map : List (String × DownloadedImage))
    (page_base_url : Url) :
    ∀ n : Node,
      imgSrcsNode (replaceImageNode image_map page_base_url n) =
        (imgSrcsNode n).map (rewriteSrcStr image_map page_base_url)
  | .text s => rfl
  | .elem tag attrs children => by
    have hc := imgSrcs_replace image_map page_base_url children
    by_cases ht : tag == "img"
    · cases hsrc : getAttr attrs "src" with
      | none =>
        simp [replaceImageNode, imgSrcsNode, ht, hc,
          getAttr_rewriteImgAttrs, hsrc]
      | some s =>
        simp [replaceImageNode, imgSrcsNode, ht, hc,
          getAttr_rewriteImgAttrs, hsrc]
    · simp [replaceImageNode, imgSrcsNode, ht, hc]

/-- Fragment version of `imgSrcsNode_replace`. -/
theorem imgSrcs_replace (image_map : List (String × DownloadedImage))
    (page_base_url : Url) :
    ∀ h : Html,
      imgSrcs (replace_image_urls image_map page_base_url h) =
        (imgSrcs h).map (rewriteSrcStr image_map page_base_url)
  | [] => rfl
  | n :: rest => by
    have h1 := imgSrcsNode_replace image_map page_base_url n
    have h2 := imgSrcs_replace image_map page_base_url rest
    simp [replace_image_urls, imgSrcs, h1, h2]
end

/-- C4: after the image rewrite, every `<img>` `src` is the pointwise
rewrite of the original — the `local_path` of the map binding of its
resolved URL when one exists, the exact original string when resolution
fails, the URL is unmapped, or the `src` is a `data:` URI — and hence
every final `src` is a `local_path` present in the image map or an
original `src`: no rewrite invents a path outside the map. -/
theorem replace_image_urls_src_spec
    (image_map : List (String × DownloadedImage)) (page_base_url : Url)
    (doc : Html) :
    imgSrcs (replace_image_urls image_map page_base_url doc) =
      (imgSrcs doc).map (rewriteSrcStr image_map page_base_url) ∧
    (∀ s, s ∈ imgSrcs (replace_image_urls image_map page_base_url doc) →
      (∃ k d, (k, d) ∈ image_map ∧ d.local_path = s) ∨ s ∈ imgSrcs doc) := by
  refine ⟨imgSrcs_replace image_map page_base_url doc, ?_⟩
  intro s hs
  rw [imgSrcs_replace image_map page_base_url doc] at hs
  rcases List.mem_map.mp hs with ⟨s0, hs0, hrw⟩
  rcases rewriteSrcStr_cases image_map page_base_url s0 with heq | ⟨k, d, hm, hlp⟩
  · right
    rw [← hrw, heq]
    exact hs0
  · left
    exact ⟨k, d, hm, by rw [hlp, hrw]⟩

/-- Witness for C4: the mapped image of `rewriteDoc` is rewritten to its
`local_path`. -/
theorem replace_image_urls_src_spec_witness :
    (∃ k d, (k, d) ∈ rewriteMap ∧ d.local_path = "images/pic.jpg.jpg") ∨
      "images/pic.jpg.jpg" ∈ imgSrcs rewriteDoc :=
  (replace_image_urls_src_spec rewriteMap pageUrl rewriteDoc).2
    "images/pic.jpg.jpg" (by decide)

/-- C9: date extraction from meta tags — the content
`2024-03-01T10:00:00Z` of the first matching meta element parses (RFC
3339 first) to exactly that instant, `2024-03-01` parses to midnight UTC
of that date, and any content the whole ordered parse chain rejects
leaves the published date absent (`none`), with no error: the extraction
is a total function into `Option`. -/
theorem extract_date_meta_tags_spec :
    extract_date_from_meta_tags headRfc3339 = some 1709287200 ∧
    extract_date_from_meta_tags headDateOnly = some 1709251200 ∧
    (1709287200 : Int) = civilToSecs 2024 3 1 10 0 0 ∧
    (1709251200 : Int) = civilToSecs 2024 3 1 0 0 0 ∧
    (∀ s, dateParseChain s = none →
      extract_date_from_meta_tags
        [[("property", "article:published_time"), ("content", s)]] = none) := by
  refine ⟨by rfl, by rfl, by rfl, by rfl, ?_⟩
  intro s h
  have e1 : selectFirstMeta [[("property", "article:published_time"), ("content", s)]]
      "property" "article:published_time" =
      some [("property", "article:published_time"), ("content", s)] := rfl
  have e2 : selectFirstMeta [[("property", "article:published_time"), ("content", s)]]
      "name" "publish-date" = none := rfl
  have e3 : selectFirstMeta [[("property", "article:published_time"), ("content", s)]]
      "name" "date" = none := rfl
  have e4 : getAttr [("property", "article:published_time"), ("content", s)]
      "content" = some s := rfl
  by_cases he : (strTrim s).isEmpty <;>
    simp [extract_date_from_meta_tags, meta_selectors, extractDateGo,
      e1, e2, e3, e4, he, h]

/-- Witness for C9 at the unparseable content `not a date`. -/
theorem extract_date_meta_tags_spec_witness :
    extract_date_from_meta_tags
      [[("property", "article:published_time"), ("content", "not a date")]] = none :=
  extract_date_meta_tags_spec.2.2.2.2 "not a date" (by rfl)

/-- C10: the filename generator is not injective — the distinct URLs
`https://a.com/pic.jpg` and `https://b.com/pic.jpg` share their base
name, so after a fully successful download phase the image map holds two
distinct keys whose values share one `local_path`; registering the first
as the cover makes the resource loop's local-path match skip both
entries, dropping the second, distinct asset. -/
theorem filename_collision_cover_exclusion :
    imgUrlA ≠ imgUrlB ∧
    generate_unique_filename "f1" imgUrlA = generate_unique_filename "f2" imgUrlB ∧
    download_image_list sendJpeg (fun _ => "f") [imgUrlA, imgUrlB] = .ok collidingMap ∧
    collidingMap.map Prod.fst = ["https://a.com/pic.jpg", "https://b.com/pic.jpg"] ∧
    "https://a.com/pic.jpg" ≠ "https://b.com/pic.jpg" ∧
    collidingMap.map (fun p => p.2.local_path) =
      ["images/pic.jpg.jpg", "images/pic.jpg.jpg"] ∧
    coverLocalPath collidingMap (some imgUrlA) = some "images/pic.jpg.jpg" ∧
    addedResources collidingMap (coverLocalPath collidingMap (some imgUrlA)) = [] := by
  refine ⟨by decide, by decide, by rfl, by rfl, by decide, by rfl, by rfl, by rfl⟩

end HttpEpub
